import Mathlib

/-!
Verification of the branchlore Branch Repository Manager.

The Go sources embedded here:
- `internal/types/types.go` — `Branch`, `MergeResult` records.
- `internal/git/git.go` — `Repository` with `CreateBranch`, `GetBranch`,
  `ListBranches`, `CreateWorktree`, `MergeBranches`, `parseConflicts`,
  `GetCurrentHash`.
- the subprocess-based `git.Manager` (`CreateBranch`, `DeleteBranch`).
- `internal/database/manager.go` — `Manager.ExecuteQuery` and helpers.

Conventions of the embedding:
- Go `(value, error)` returns become `Except String value`; functions that
  also mutate on-disk state additionally return the new state.
- The outside world (the `git` subprocess, go-git library calls that hit
  the filesystem, the SQLite driver) is an explicit environment record:
  each call site that can fail gets a field describing the outcome the
  world supplies, and the state transition is taken from the source.
- `filepath.Abs` is modelled as the identity on the stored repository
  path (the path is taken to be absolute already); `filepath.Join` is
  string concatenation with "/".
- Timestamps are natural numbers; `time.Now()` is an explicit argument.
-/

deriving instance DecidableEq for Except

namespace Branchlore

/-- Embeds Go `strings.Contains s pat` for a non-empty fixed pattern:
`splitOn` yields more than one piece exactly when the pattern occurs. -/
def hasSubstr (s pat : String) : Bool :=
  (s.splitOn pat).length != 1

/-- `types.Branch` from internal/types/types.go. -/
structure Branch where
  name : String
  hash : String
  createdAt : Nat
  isMain : Bool
deriving Repr, DecidableEq

/-- `types.MergeResult` from internal/types/types.go. -/
structure MergeResult where
  success : Bool
  conflicts : List String
  message : String
deriving Repr, DecidableEq

/-- go-git `Storer.SetReference`: upsert of a branch reference. -/
def setRef (refs : List (String × String)) (name h : String) :
    List (String × String) :=
  (name, h) :: refs.filter (fun p => p.1 != name)

namespace GitRepo

/-- Commit metadata the code reads (`commit.Author.When`). -/
structure Commit where
  authorWhen : Nat
deriving Repr, DecidableEq

/-- State of an internal/git `Repository` plus the on-disk pieces its
methods touch. `initialized` is `r.repo != nil`; `head` is the hash HEAD
resolves to (`none` = `ErrReferenceNotFound`); `refs` are the branch
references (name ↦ hash); `commits` is the object store restricted to
what `CommitObject` looks up; `fsPaths` are the directories that exist
(queried by `os.Stat`). -/
structure RepoState where
  initialized : Bool
  path : String
  head : Option String
  refs : List (String × String)
  commits : List (String × Commit)
  fsPaths : List String
deriving Repr, DecidableEq

/-- `Repository.CreateBranch` (git.go:80-103). Reads HEAD, upserts the
branch reference at HEAD's hash via `SetReference`, and returns a
`Branch` stamped with `time.Now()` (the `now` argument). -/
def CreateBranch (st : RepoState) (name : String) (now : Nat) :
    Except String Branch × RepoState :=
  if st.initialized = false then
    (.error "repository not initialized", st)
  else
    match st.head with
    | none => (.error "reference not found", st)
    | some h =>
      ((.ok { name := name, hash := h, createdAt := now,
              isMain := name == "main" || name == "master" }),
       { st with refs := setRef st.refs name h })

/-- `Repository.GetBranch` (git.go:105-127). Resolves the branch
reference, loads its commit, and returns a `Branch` stamped with the
commit's author timestamp. Read-only, hence no state in the result. -/
def GetBranch (st : RepoState) (name : String) : Except String Branch :=
  if st.initialized = false then
    .error "repository not initialized"
  else
    match st.refs.lookup name with
    | none => .error "reference not found"
    | some h =>
      match st.commits.lookup h with
      | none => .error "object not found"
      | some c =>
        .ok { name := name, hash := h, createdAt := c.authorWhen,
              isMain := name == "main" || name == "master" }

/-- Loop body of `Repository.ListBranches` (git.go:140-156): iterate the
branch references in order, appending a `Branch` per reference; a missing
commit object aborts the iteration, returning the partial list and the
error, exactly as `refs.ForEach` does. -/
def listGo (commits : List (String × Commit)) :
    List (String × String) → List Branch → List Branch × Option String
  | [], acc => (acc, none)
  | (n, h) :: rest, acc =>
    match commits.lookup h with
    | none => (acc, some "object not found")
    | some c =>
      listGo commits rest
        (acc ++ [{ name := n, hash := h, createdAt := c.authorWhen,
                   isMain := n == "main" || n == "master" }])

/-- `Repository.ListBranches` (git.go:129-159). Returns the branch list
and the error from the iteration (Go returns both). -/
def ListBranches (st : RepoState) : List Branch × Option String :=
  if st.initialized = false then
    ([], some "repository not initialized")
  else
    listGo st.commits st.refs []

/-- `Repository.GetCurrentHash` (git.go:234-245). -/
def GetCurrentHash (st : RepoState) : Except String String :=
  if st.initialized = false then
    .error "repository not initialized"
  else
    match st.head with
    | none => .error "reference not found"
    | some h => .ok h

/-- Outcome the world supplies for the `git worktree add` subprocess:
`none` = exit 0, `some e` = non-zero exit with Go error `e`. -/
structure WorktreeEnv where
  addExitErr : Option String
deriving Repr, DecidableEq

/-- The deterministic worktree path `filepath.Join(absRepoPath,
"worktrees", branch)` (git.go:171). -/
def wtPath (st : RepoState) (branch : String) : String :=
  st.path ++ "/worktrees/" ++ branch

/-- Result of `CreateWorktree`: the returned value, the new state, and
the number of subprocess invocations performed (for observing that the
already-provisioned path performs none). -/
structure WorktreeOut where
  result : Except String String
  state : RepoState
  calls : Nat
deriving Repr, DecidableEq

/-- `Repository.CreateWorktree` (git.go:161-187). If the worktree
directory already exists (`os.Stat` succeeds), returns it with no
subprocess work; otherwise runs `git worktree add`, which on success
materializes the directory. -/
def CreateWorktree (st : RepoState) (branch : String) (env : WorktreeEnv) :
    WorktreeOut :=
  if st.initialized = false then
    ⟨.error "repository not initialized", st, 0⟩
  else if st.fsPaths.contains (wtPath st branch) then
    ⟨.ok (wtPath st branch), st, 0⟩
  else
    match env.addExitErr with
    | some e => ⟨.error e, st, 1⟩
    | none =>
      ⟨.ok (wtPath st branch),
       { st with fsPaths := wtPath st branch :: st.fsPaths }, 1⟩

/-- Outcomes the world supplies for the two subprocesses `MergeBranches`
runs: `git checkout target` and `git merge source`. The `ExitErr` fields
are the Go `error` from `CombinedOutput` (`none` = exit 0); the `Output`
fields are the combined stdout+stderr text. -/
structure MergeEnv where
  checkoutExitErr : Option String
  checkoutOutput : String
  mergeExitErr : Option String
  mergeOutput : String
deriving Repr, DecidableEq

/-- `Repository.parseConflicts` (git.go:223-232), as the Go loop: split
the diagnostic on newlines and append the trimmed form of every line
containing "CONFLICT". -/
def parseConflicts (output : String) : List String :=
  (output.splitOn "\n").foldl
    (fun conflicts line =>
      if hasSubstr line "CONFLICT" then conflicts ++ [line.trim]
      else conflicts) []

/-- The spec's description of conflict extraction: the subset of
diagnostic lines that mark conflicts, in order, each trimmed. -/
def conflictLines (output : String) : List String :=
  ((output.splitOn "\n").filter (fun line => hasSubstr line "CONFLICT")).map
    String.trim

/-- Result of `MergeBranches`: the `*MergeResult`, the Go `error`, the
state, and the subprocess count. The post-merge effect of a successful
checkout/merge on the commit store is outside every claim and left
untracked; the claims concern the returned values and the frame of the
not-initialized guard. -/
structure MergeOut where
  result : Option MergeResult
  err : Option String
  state : RepoState
  calls : Nat
deriving Repr, DecidableEq

/-- `Repository.MergeBranches` (git.go:189-221). Checkout failure
returns a failed result together with the subprocess error; a merge-step
failure is folded into the result (conflicts parsed when the output
contains "CONFLICT") and returned with a nil error. -/
def MergeBranches (st : RepoState) (source target : String)
    (env : MergeEnv) : MergeOut :=
  if st.initialized = false then
    ⟨none, some "repository not initialized", st, 0⟩
  else
    match env.checkoutExitErr with
    | some e =>
      ⟨some { success := false, conflicts := [],
              message := env.checkoutOutput }, some e, st, 1⟩
    | none =>
      let output := env.mergeOutput
      match env.mergeExitErr with
      | some _ =>
        if hasSubstr output "CONFLICT" then
          ⟨some { success := false, conflicts := parseConflicts output,
                  message := output }, none, st, 2⟩
        else
          ⟨some { success := false, conflicts := [], message := output },
           none, st, 2⟩
      | none =>
        ⟨some { success := true, conflicts := [], message := output },
         none, st, 2⟩

end GitRepo

namespace Mgr

/-- State of the subprocess-based `git.Manager` for one database
repository. `repoExists` is whether `git.PlainOpen` on the database path
succeeds; `head` is the hash HEAD resolves to; `refs` are the branch
references; `worktreeDirs` are the branch names whose
`worktrees/<branch>` directory exists; `checkedOut` is the branch the
repository's primary working copy has checked out. -/
structure MgrState where
  repoExists : Bool
  head : Option String
  refs : List (String × String)
  worktreeDirs : List String
  checkedOut : String
deriving Repr, DecidableEq

/-- `os.MkdirAll`: create the directory if absent, no-op otherwise. -/
def insertDir (dirs : List String) (d : String) : List String :=
  if dirs.contains d then dirs else dirs ++ [d]

/-- `Manager.CreateBranch`. Opens the repository, reads HEAD, upserts
the branch reference at HEAD, eagerly creates the
`worktrees/<branchName>` directory with `MkdirAll`, and checks the
primary working copy out to the new branch (`checkoutOk` is whether that
checkout succeeds; on its failure the reference and directory have
already been written). -/
def CreateBranch (st : MgrState) (branchName : String) (checkoutOk : Bool) :
    Except String Unit × MgrState :=
  if st.repoExists = false then
    (.error "failed to open repository", st)
  else
    match st.head with
    | none => (.error "failed to get HEAD", st)
    | some h =>
      let st1 := { st with refs := setRef st.refs branchName h,
                           worktreeDirs := insertDir st.worktreeDirs branchName }
      if checkoutOk then
        (.ok (), { st1 with checkedOut := branchName })
      else
        (.error "failed to checkout branch", st1)

/-- `Manager.DeleteBranch`. Refuses only the literal name "main";
otherwise opens the repository, removes the branch reference
(`RemoveReference`), and deletes the worktree directory (`RemoveAll`,
which also succeeds when the directory is absent). -/
def DeleteBranch (st : MgrState) (branchName : String) :
    Except String Unit × MgrState :=
  if branchName == "main" then
    (.error "cannot delete main branch", st)
  else if st.repoExists = false then
    (.error "failed to open repository", st)
  else
    (.ok (),
     { st with refs := st.refs.filter (fun p => p.1 != branchName),
               worktreeDirs := st.worktreeDirs.filter (fun d => d != branchName) })

end Mgr

namespace DB

/-- A SQLite driver value as the Go code sees it after `rows.Scan`:
`bytes s` is a `[]byte` column carrying the string its bytes spell
(Go's `string(v)` conversion is byte reinterpretation). -/
inductive Value where
  | null : Value
  | int (i : Int) : Value
  | text (s : String) : Value
  | bytes (s : String) : Value
deriving Repr, DecidableEq

/-- The per-value conversion in `executeSelect`'s row loop: `[]byte`
becomes `string`, everything else is passed through. -/
def convertVal : Value → Value
  | .bytes s => .text s
  | v => v

/-- The JSON payload `ExecuteQuery` marshals: either a `QueryResult`
(columns, rows, error — the error string is "" when absent, matching
`omitempty`) or the modify response map. `json.Marshal` of these shapes
cannot fail, so marshalling is the identity here. -/
inductive Payload where
  | queryRes (columns : List String) (rows : List (List Value))
      (error : String) : Payload
  | modifyRes (rowsAffected lastInsertId : Int) : Payload
deriving Repr, DecidableEq

/-- The "error" field of a payload ("" when absent). -/
def Payload.errField : Payload → String
  | .queryRes _ _ e => e
  | .modifyRes _ _ => ""

/-- Outcomes the SQLite driver supplies to `executeSelect`:
the `db.Query` error, the `rows.Columns` error, the column names, and
per row either a `rows.Scan` error or the scanned values. -/
structure SelectEnv where
  queryErr : Option String
  columnsErr : Option String
  columns : List String
  rowsData : List (Except String (List Value))
deriving Repr, DecidableEq

/-- The row loop of `Manager.executeSelect`: a scan failure returns an
error payload immediately, otherwise converted rows accumulate in
order. -/
def scanRows (cols : List String) :
    List (Except String (List Value)) → List (List Value) → Payload
  | [], acc => .queryRes cols acc ""
  | .error e :: _, _ => .queryRes [] [] e
  | .ok vals :: rest, acc => scanRows cols rest (acc ++ [vals.map convertVal])

/-- `Manager.executeSelect` (manager.go:58-107). Every driver failure is
folded into the payload's error field; the Go error is always nil. -/
def executeSelect (env : SelectEnv) : Payload :=
  match env.queryErr with
  | some e => .queryRes [] [] e
  | none =>
    match env.columnsErr with
    | some e => .queryRes [] [] e
    | none => scanRows env.columns env.rowsData []

/-- Outcomes the driver supplies to `executeModify`: the `db.Exec`
error, and on success the affected-rows and last-insert-id counters. -/
structure ModifyEnv where
  execErr : Option String
  rowsAffected : Int
  lastInsertId : Int
deriving Repr, DecidableEq

/-- `Manager.executeModify` (manager.go:109-125). An exec failure is
folded into the payload's error field; the Go error is always nil. -/
def executeModify (env : ModifyEnv) : Payload :=
  match env.execErr with
  | some e => .queryRes [] [] e
  | none => .modifyRes env.rowsAffected env.lastInsertId

/-- The dispatch test in `ExecuteQuery` (manager.go:50-55): trim the
query and compare the upper-cased first space-separated word with
"SELECT". -/
def isSelectQuery (query : String) : Bool :=
  ((query.trim.splitOn " ").headD "").toUpper == "SELECT"

/-- External outcomes for one `ExecuteQuery` call: whether
`BranchExists` reports the branch, whether the connection cache already
holds `db@branch`, the `sql.Open` error when it does not, and the driver
outcomes for whichever statement runs. -/
structure ExecEnv where
  branchExists : Bool
  connCached : Bool
  openErr : Option String
  sel : SelectEnv
  mod : ModifyEnv
deriving Repr, DecidableEq

/-- `Manager.ExecuteQuery` (manager.go:32-56). Fails for a missing
branch or a failed `sql.Open`; otherwise dispatches on the first word of
the trimmed query and returns the marshalled payload with a nil error.
(The insertion into the connection cache only affects later calls and is
not tracked.) -/
def ExecuteQuery (env : ExecEnv) (dbName branch query : String) :
    Except String Payload :=
  if env.branchExists = false then
    .error ("branch " ++ branch ++ " does not exist")
  else
    match (if env.connCached then none else env.openErr) with
    | some e => .error ("failed to open database: " ++ e)
    | none =>
      if isSelectQuery query then
        .ok (executeSelect env.sel)
      else
        .ok (executeModify env.mod)

end DB

/-! ## Helper lemmas and fixtures -/

/-- The Go append-loop of `parseConflicts` computes exactly the spec's
filter-then-trim selection of the diagnostic lines. -/
theorem foldl_conflict_filter (p : String → Bool) (f : String → String) :
    ∀ (ls : List String) (acc : List String),
      ls.foldl (fun conflicts line =>
        if p line then conflicts ++ [f line] else conflicts) acc
        = acc ++ (ls.filter p).map f := by
  intro ls
  induction ls with
  | nil => intro acc; simp
  | cons hd tl ih =>
    intro acc
    rw [List.foldl_cons, List.filter_cons]
    cases hp : p hd <;> simp [hp, ih]

theorem parseConflicts_eq_conflictLines (output : String) :
    GitRepo.parseConflicts output = GitRepo.conflictLines output := by
  unfold GitRepo.parseConflicts GitRepo.conflictLines
  simpa using foldl_conflict_filter (fun line => hasSubstr line "CONFLICT")
    String.trim (output.splitOn "\n") []

theorem lookup_setRef (refs : List (String × String)) (n h : String) :
    (setRef refs n h).lookup n = some h := by
  simp [setRef, List.lookup]

/-- An initialized one-branch repository used to instantiate theorems. -/
def stReady : GitRepo.RepoState :=
  { initialized := true, path := "/data/repo", head := some "aaaa",
    refs := [("main", "aaaa")], commits := [("aaaa", ⟨100⟩)],
    fsPaths := [] }

/-- The same repository before `Init` has run. -/
def stOff : GitRepo.RepoState :=
  { initialized := false, path := "/data/repo", head := some "aaaa",
    refs := [("main", "aaaa")], commits := [("aaaa", ⟨100⟩)],
    fsPaths := [] }

/-- Subprocess outcome: `git checkout` fails (target missing). -/
def envCheckoutFail : GitRepo.MergeEnv :=
  { checkoutExitErr := some "exit status 1",
    checkoutOutput := "error: pathspec did not match any file known to git",
    mergeExitErr := none, mergeOutput := "" }

/-- Subprocess outcome: checkout succeeds, merge hits a content
conflict. -/
def envConflict : GitRepo.MergeEnv :=
  { checkoutExitErr := none, checkoutOutput := "",
    mergeExitErr := some "exit status 1",
    mergeOutput := "Auto-merging db.sqlite\nCONFLICT (content): Merge conflict in db.sqlite\nAutomatic merge failed; fix conflicts and then commit the result." }

/-! ## Claims -/

/-- C1: `MergeBranches` surfaces a Go error to the caller iff the
checkout of `target` fails; in that case the returned `MergeResult` has
`success = false`, `message` equal to the checkout diagnostic output and
an empty conflict list, while a failure of the merge step itself is
returned with a nil error. -/
theorem merge_error_iff_checkout_fails
    (st : GitRepo.RepoState) (source target : String)
    (env : GitRepo.MergeEnv) (hinit : st.initialized = true) :
    ((GitRepo.MergeBranches st source target env).err ≠ none ↔
      env.checkoutExitErr ≠ none)
    ∧ (env.checkoutExitErr ≠ none →
        (GitRepo.MergeBranches st source target env).result =
          some { success := false, conflicts := [],
                 message := env.checkoutOutput })
    ∧ (env.checkoutExitErr = none →
        (GitRepo.MergeBranches st source target env).err = none) := by
  unfold GitRepo.MergeBranches
  rcases hck : env.checkoutExitErr with _ | e
  · rcases hmg : env.mergeExitErr with _ | e2 <;> simp [hinit, hck, hmg]
    split <;> simp
  · simp [hinit, hck]

/-- Witness for C1 at a concrete failing checkout. -/
theorem merge_error_iff_checkout_fails_witness :
    ((GitRepo.MergeBranches stReady "feature" "main" envCheckoutFail).err ≠ none ↔
      envCheckoutFail.checkoutExitErr ≠ none)
    ∧ (envCheckoutFail.checkoutExitErr ≠ none →
        (GitRepo.MergeBranches stReady "feature" "main" envCheckoutFail).result =
          some { success := false, conflicts := [],
                 message := envCheckoutFail.checkoutOutput })
    ∧ (envCheckoutFail.checkoutExitErr = none →
        (GitRepo.MergeBranches stReady "feature" "main" envCheckoutFail).err = none) :=
  merge_error_iff_checkout_fails stReady "feature" "main" envCheckoutFail rfl

/-- C2: when the merge step fails and the diagnostic signals a content
conflict, the result has `success = false` and `conflicts` equal to the
subset of diagnostic lines containing the conflict marker, in order,
each trimmed of leading and trailing whitespace; a merge failure without
the marker yields an empty conflict list; a successful merge yields
`success = true` with an empty list. -/
theorem merge_conflicts_extraction
    (st : GitRepo.RepoState) (source target : String)
    (env : GitRepo.MergeEnv) (hinit : st.initialized = true)
    (hck : env.checkoutExitErr = none) :
    ∃ res, (GitRepo.MergeBranches st source target env).result = some res
      ∧ (env.mergeExitErr ≠ none →
          hasSubstr env.mergeOutput "CONFLICT" = true →
          res.success = false ∧
          res.conflicts = GitRepo.conflictLines env.mergeOutput)
      ∧ (env.mergeExitErr ≠ none →
          hasSubstr env.mergeOutput "CONFLICT" = false →
          res.success = false ∧ res.conflicts = [])
      ∧ (env.mergeExitErr = none →
          res.success = true ∧ res.conflicts = []) := by
  unfold GitRepo.MergeBranches
  rcases hmg : env.mergeExitErr with _ | e
  · simp [hinit, hck, hmg]
  · rcases hc : hasSubstr env.mergeOutput "CONFLICT" <;>
      simp [hinit, hck, hmg, hc, parseConflicts_eq_conflictLines]

/-- Witness for C2 at a concrete conflicting merge. -/
theorem merge_conflicts_extraction_witness :
    ∃ res, (GitRepo.MergeBranches stReady "feature" "main" envConflict).result = some res
      ∧ (envConflict.mergeExitErr ≠ none →
          hasSubstr envConflict.mergeOutput "CONFLICT" = true →
          res.success = false ∧
          res.conflicts = GitRepo.conflictLines envConflict.mergeOutput)
      ∧ (envConflict.mergeExitErr ≠ none →
          hasSubstr envConflict.mergeOutput "CONFLICT" = false →
          res.success = false ∧ res.conflicts = [])
      ∧ (envConflict.mergeExitErr = none →
          res.success = true ∧ res.conflicts = []) :=
  merge_conflicts_extraction stReady "feature" "main" envConflict rfl rfl

/-- A manager-side repository holding both a "main" and a "master"
branch, the latter with a provisioned worktree. -/
def mgrWithMaster : Mgr.MgrState :=
  { repoExists := true, head := some "h1",
    refs := [("main", "h0"), ("master", "h1")],
    worktreeDirs := ["master"], checkedOut := "main" }

/-- C3 counterexample: the claim says `DeleteBranch` on every trunk name
("main" or "master") always fails and leaves the reference and worktree
unchanged, but `DeleteBranch` only guards the literal "main": deleting
"master" succeeds, removes its reference and removes its worktree
directory. -/
theorem delete_master_succeeds_cex :
    mgrWithMaster.refs.lookup "master" = some "h1"
    ∧ mgrWithMaster.worktreeDirs = ["master"]
    ∧ (Mgr.DeleteBranch mgrWithMaster "master").1 = .ok ()
    ∧ (Mgr.DeleteBranch mgrWithMaster "master").2.refs.lookup "master" = none
    ∧ (Mgr.DeleteBranch mgrWithMaster "master").2.worktreeDirs = [] := by
  decide

/-- C3 amended: `DeleteBranch` on the name "main" always fails with an
error and returns the state unchanged (reference and worktree
untouched); the name "master" is not protected. -/
theorem delete_main_always_fails (st : Mgr.MgrState) :
    Mgr.DeleteBranch st "main" = (.error "cannot delete main branch", st) := by
  simp [Mgr.DeleteBranch]

/-- An initialized repository that already has a branch "b" at revision
"r1" while HEAD is at "r2". -/
def stExisting : GitRepo.RepoState :=
  { initialized := true, path := "/data/repo", head := some "r2",
    refs := [("b", "r1")], commits := [("r2", ⟨50⟩)], fsPaths := [] }

/-- C4 counterexample: the claim says `CreateBranch(name)` fails with
`BranchExistsError` whenever a branch named `name` exists and leaves the
existing reference's revision unchanged, but `CreateBranch` performs no
existence check: on a repository where branch "b" exists at "r1" it
succeeds and moves the reference to HEAD's "r2". -/
theorem create_existing_branch_no_error_cex :
    stExisting.refs.lookup "b" = some "r1"
    ∧ (GitRepo.CreateBranch stExisting "b" 7).1 =
        .ok { name := "b", hash := "r2", createdAt := 7, isMain := false }
    ∧ (GitRepo.CreateBranch stExisting "b" 7).2.refs.lookup "b" = some "r2"
    ∧ "r1" ≠ "r2" := by
  decide

/-- C4 amended: `CreateBranch` never checks for an existing reference
and never fails with `BranchExistsError`: whenever the repository is
initialized and HEAD resolves, `CreateBranch(name)` succeeds even if a
branch named `name` already exists, and the reference afterwards points
at the HEAD revision (overwriting any previous revision). -/
theorem create_branch_overwrites
    (st : GitRepo.RepoState) (name h : String) (now : Nat)
    (hinit : st.initialized = true) (hhead : st.head = some h) :
    ∃ b, (GitRepo.CreateBranch st name now).1 = .ok b
      ∧ (GitRepo.CreateBranch st name now).2.refs.lookup name = some h := by
  unfold GitRepo.CreateBranch
  simp [hinit, hhead, lookup_setRef]

/-- Witness for the amended C4 on the fixture with an existing branch. -/
theorem create_branch_overwrites_witness :
    ∃ b, (GitRepo.CreateBranch stExisting "b" 7).1 = .ok b
      ∧ (GitRepo.CreateBranch stExisting "b" 7).2.refs.lookup "b" = some "r2" :=
  create_branch_overwrites stExisting "b" "r2" 7 rfl rfl

/-- C5: for a fresh branch name `X`, `CreateBranch X` followed by
`GetBranch X` succeeds and returns a `Branch` whose name is `X` and
whose hash is the trunk HEAD revision at creation time. -/
theorem create_then_get_roundtrip
    (st : GitRepo.RepoState) (X : String) (now : Nat) (h : String)
    (c : GitRepo.Commit) (hinit : st.initialized = true)
    (hhead : st.head = some h) (hc : st.commits.lookup h = some c)
    (hfresh : st.refs.lookup X = none) :
    ∃ b st2, GitRepo.CreateBranch st X now = (.ok b, st2)
      ∧ ∃ b2, GitRepo.GetBranch st2 X = .ok b2
          ∧ b2.name = X ∧ b2.hash = h := by
  unfold GitRepo.CreateBranch GitRepo.GetBranch
  simp [hinit, hhead]
  refine ⟨_, _, ⟨rfl, rfl⟩, ?_⟩
  simp [lookup_setRef, hc]

/-- Witness for C5: create "feature" on the ready fixture, read it
back. -/
theorem create_then_get_roundtrip_witness :
    ∃ b st2, GitRepo.CreateBranch stReady "feature" 7 = (.ok b, st2)
      ∧ ∃ b2, GitRepo.GetBranch st2 "feature" = .ok b2
          ∧ b2.name = "feature" ∧ b2.hash = "aaaa" :=
  create_then_get_roundtrip stReady "feature" 7 "aaaa" ⟨100⟩ rfl rfl
    (by decide) (by decide)

/-- C6: worktree provisioning is idempotent — after a successful
`CreateWorktree` call, a second call for the same branch returns the
same path with the state unchanged and performs no provisioning
subprocess work; and whenever the worktree directory already exists, the
call returns that path unchanged with zero subprocess invocations. -/
theorem worktree_provisioning_idempotent :
    (∀ (st : GitRepo.RepoState) (b : String)
       (env1 env2 : GitRepo.WorktreeEnv) (p : String)
       (st1 : GitRepo.RepoState) (n1 : Nat),
       GitRepo.CreateWorktree st b env1 = ⟨.ok p, st1, n1⟩ →
       GitRepo.CreateWorktree st1 b env2 = ⟨.ok p, st1, 0⟩)
    ∧ (∀ (st : GitRepo.RepoState) (b : String) (env : GitRepo.WorktreeEnv),
       st.initialized = true →
       st.fsPaths.contains (GitRepo.wtPath st b) = true →
       GitRepo.CreateWorktree st b env =
         ⟨.ok (GitRepo.wtPath st b), st, 0⟩) := by
  constructor
  · intro st b env1 env2 p st1 n1 hcall
    unfold GitRepo.CreateWorktree at hcall ⊢
    by_cases hinit : st.initialized = false
    · rw [if_pos hinit] at hcall
      simp at hcall
    · rw [if_neg hinit] at hcall
      by_cases hex : st.fsPaths.contains (GitRepo.wtPath st b) = true
      · rw [if_pos hex] at hcall
        simp only [GitRepo.WorktreeOut.mk.injEq, Except.ok.injEq] at hcall
        obtain ⟨h1, h2, -⟩ := hcall
        subst h1
        subst h2
        rw [if_neg hinit, if_pos hex]
      · rw [if_neg hex] at hcall
        cases henv : env1.addExitErr with
        | some e =>
          rw [henv] at hcall
          simp at hcall
        | none =>
          rw [henv] at hcall
          simp only [GitRepo.WorktreeOut.mk.injEq, Except.ok.injEq] at hcall
          obtain ⟨h1, h2, -⟩ := hcall
          subst h1
          subst h2
          simp [hinit, GitRepo.wtPath]
  · intro st b env hinit hex
    unfold GitRepo.CreateWorktree
    rw [if_neg (by simp [hinit]), if_pos hex]

/-- A subprocess environment in which `git worktree add` succeeds. -/
def envAddOk : GitRepo.WorktreeEnv := { addExitErr := none }

/-- The ready fixture after the "feature" worktree has been
provisioned. -/
def stProvisioned : GitRepo.RepoState :=
  { stReady with fsPaths := ["/data/repo/worktrees/feature"] }

/-- Witness for C6: the second provisioning call on the provisioned
state returns the same path with no subprocess work, obtained by
applying the idempotence theorem to the concrete first call. -/
theorem worktree_provisioning_idempotent_witness :
    GitRepo.CreateWorktree stProvisioned "feature" envAddOk =
      ⟨.ok "/data/repo/worktrees/feature", stProvisioned, 0⟩ :=
  worktree_provisioning_idempotent.1 stReady "feature" envAddOk envAddOk
    "/data/repo/worktrees/feature" stProvisioned 1 (by decide)

/-- A manager-side repository with no worktree directories yet. -/
def mgrReady : Mgr.MgrState :=
  { repoExists := true, head := some "h1", refs := [("main", "h1")],
    worktreeDirs := [], checkedOut := "main" }

/-- C7 counterexample: the claim says branch creation never creates a
worktree or checks out the branch's working directory, but the
subprocess-based `Manager.CreateBranch` eagerly creates the
`worktrees/feature` directory and checks the primary working copy out
to the new branch. -/
theorem manager_create_branch_eager_cex :
    mgrReady.worktreeDirs = []
    ∧ mgrReady.checkedOut = "main"
    ∧ (Mgr.CreateBranch mgrReady "feature" true).1 = .ok ()
    ∧ (Mgr.CreateBranch mgrReady "feature" true).2.worktreeDirs = ["feature"]
    ∧ (Mgr.CreateBranch mgrReady "feature" true).2.checkedOut = "feature" := by
  decide

/-- C7 amended: worktree creation is lazy in the go-git-backed
`Repository`: its `CreateBranch` changes nothing but the branch
references — the filesystem paths, repository path, HEAD, commit store
and initialization flag are all unchanged, for every input and also on
failure. (The subprocess-based `Manager.CreateBranch`, by contrast,
eagerly creates the worktree directory and checks out the branch, as
the counterexample shows.) -/
theorem repo_create_branch_lazy
    (st : GitRepo.RepoState) (name : String) (now : Nat) :
    (GitRepo.CreateBranch st name now).2.fsPaths = st.fsPaths
    ∧ (GitRepo.CreateBranch st name now).2.path = st.path
    ∧ (GitRepo.CreateBranch st name now).2.head = st.head
    ∧ (GitRepo.CreateBranch st name now).2.commits = st.commits
    ∧ (GitRepo.CreateBranch st name now).2.initialized = st.initialized := by
  unfold GitRepo.CreateBranch
  rcases hinit : st.initialized <;> rcases hhead : st.head <;>
    simp [hinit, hhead]

/-- An initialized repository whose HEAD commit carries author
timestamp 100. -/
def stC8 : GitRepo.RepoState :=
  { initialized := true, path := "/data/repo", head := some "h1",
    refs := [("main", "h1")], commits := [("h1", ⟨100⟩)], fsPaths := [] }

/-- C8 counterexample: the claim says every `Branch` returned by
`CreateBranch` carries the commit's timestamp, but `CreateBranch`
stamps the wall-clock time of the call: with the HEAD commit authored
at 100 and the call running at wall-clock 200, the returned branch has
`createdAt = 200`. -/
theorem created_at_wall_clock_cex :
    stC8.head = some "h1"
    ∧ stC8.commits.lookup "h1" = some ⟨100⟩
    ∧ (GitRepo.CreateBranch stC8 "feature" 200).1 =
        .ok { name := "feature", hash := "h1", createdAt := 200,
              isMain := false }
    ∧ (200 : Nat) ≠ 100 := by
  decide

/-- C8 amended: `GetBranch` stamps the returned `Branch` with the
author timestamp of the commit the reference points to, while
`CreateBranch` stamps the wall-clock time at which the call ran. -/
theorem created_at_source_semantics
    (st : GitRepo.RepoState) (name h h2 : String) (now : Nat)
    (c : GitRepo.Commit) (hinit : st.initialized = true)
    (hhead : st.head = some h)
    (href : st.refs.lookup name = some h2)
    (hc : st.commits.lookup h2 = some c) :
    (∃ b, (GitRepo.CreateBranch st name now).1 = .ok b
       ∧ b.createdAt = now)
    ∧ (∃ b2, GitRepo.GetBranch st name = .ok b2
       ∧ b2.createdAt = c.authorWhen) := by
  unfold GitRepo.CreateBranch GitRepo.GetBranch
  simp [hinit, hhead, href, hc]

/-- Witness for the amended C8 on the `stC8` fixture. -/
theorem created_at_source_semantics_witness :
    (∃ b, (GitRepo.CreateBranch stC8 "main" 200).1 = .ok b
       ∧ b.createdAt = 200)
    ∧ (∃ b2, GitRepo.GetBranch stC8 "main" = .ok b2
       ∧ b2.createdAt = (⟨100⟩ : GitRepo.Commit).authorWhen) :=
  created_at_source_semantics stC8 "main" "h1" "h1" 200 ⟨100⟩ rfl rfl
    (by decide) (by decide)

/-- C9: every repository operation invoked before `Init` has succeeded
(`r.repo == nil`) fails with the not-initialized error, returns the
state unchanged, and performs no subprocess work. -/
theorem ops_fail_before_init
    (st : GitRepo.RepoState) (name src tgt : String) (now : Nat)
    (wenv : GitRepo.WorktreeEnv) (menv : GitRepo.MergeEnv)
    (hoff : st.initialized = false) :
    GitRepo.CreateBranch st name now =
      (.error "repository not initialized", st)
    ∧ GitRepo.GetBranch st name = .error "repository not initialized"
    ∧ GitRepo.ListBranches st = ([], some "repository not initialized")
    ∧ GitRepo.CreateWorktree st name wenv =
        ⟨.error "repository not initialized", st, 0⟩
    ∧ GitRepo.MergeBranches st src tgt menv =
        ⟨none, some "repository not initialized", st, 0⟩
    ∧ GitRepo.GetCurrentHash st = .error "repository not initialized" := by
  unfold GitRepo.CreateBranch GitRepo.GetBranch GitRepo.ListBranches
    GitRepo.CreateWorktree GitRepo.MergeBranches GitRepo.GetCurrentHash
  simp [hoff]

/-- Witness for C9 on the uninitialized fixture. -/
theorem ops_fail_before_init_witness :
    GitRepo.CreateBranch stOff "feature" 7 =
      (.error "repository not initialized", stOff)
    ∧ GitRepo.GetBranch stOff "feature" = .error "repository not initialized"
    ∧ GitRepo.ListBranches stOff = ([], some "repository not initialized")
    ∧ GitRepo.CreateWorktree stOff "feature" envAddOk =
        ⟨.error "repository not initialized", stOff, 0⟩
    ∧ GitRepo.MergeBranches stOff "feature" "main" envConflict =
        ⟨none, some "repository not initialized", stOff, 0⟩
    ∧ GitRepo.GetCurrentHash stOff = .error "repository not initialized" :=
  ops_fail_before_init stOff "feature" "feature" "main" 7 envAddOk
    envConflict rfl

/-- C10: on an existing branch with an openable database, a failure of
the SQL statement itself is never a Go-level error: `ExecuteQuery`
returns a marshalled payload whose "error" field carries the driver
message, and a non-nil Go error occurs exactly when the branch does not
exist or the database file cannot be opened. -/
theorem execute_query_error_routing
    (env : DB.ExecEnv) (dbName branch query : String)
    (hb : env.branchExists = true)
    (hopen : env.connCached = true ∨ env.openErr = none) :
    (∃ p, DB.ExecuteQuery env dbName branch query = .ok p)
    ∧ (∀ e, DB.isSelectQuery query = true → env.sel.queryErr = some e →
        DB.ExecuteQuery env dbName branch query = .ok (.queryRes [] [] e)
        ∧ (DB.Payload.queryRes [] [] e).errField = e)
    ∧ (∀ e, DB.isSelectQuery query = false → env.mod.execErr = some e →
        DB.ExecuteQuery env dbName branch query = .ok (.queryRes [] [] e)
        ∧ (DB.Payload.queryRes [] [] e).errField = e)
    ∧ (∀ env2 : DB.ExecEnv,
        (DB.ExecuteQuery env2 dbName branch query).isOk = false ↔
          (env2.branchExists = false ∨
           (env2.connCached = false ∧ env2.openErr ≠ none))) := by
  have hmatch : (if env.connCached then none else env.openErr) = none := by
    rcases hopen with h | h <;> simp [h]
  refine ⟨?_, ?_, ?_, ?_⟩
  · cases hq : DB.isSelectQuery query <;>
      simp [DB.ExecuteQuery, hb, hmatch, hq]
  · intro e hq he
    simp [DB.ExecuteQuery, hb, hmatch, hq, DB.executeSelect, he,
      DB.Payload.errField]
  · intro e hq he
    simp [DB.ExecuteQuery, hb, hmatch, hq, DB.executeModify, he,
      DB.Payload.errField]
  · intro env2
    cases hbe : env2.branchExists
    · simp [DB.ExecuteQuery, hbe, Except.isOk, Except.toBool]
    · cases hcc : env2.connCached
      · cases hoe : env2.openErr with
        | none =>
          cases hq : DB.isSelectQuery query <;>
            simp [DB.ExecuteQuery, hbe, hcc, hoe, hq, Except.isOk, Except.toBool]
        | some e2 =>
          simp [DB.ExecuteQuery, hbe, hcc, hoe, Except.isOk, Except.toBool]
      · cases hq : DB.isSelectQuery query <;>
          simp [DB.ExecuteQuery, hbe, hcc, hq, Except.isOk, Except.toBool]

/-- A driver environment for an existing branch and openable database
whose statements both fail: the select with a syntax error, the modify
with a constraint violation. -/
def envSqlFail : DB.ExecEnv :=
  { branchExists := true, connCached := false, openErr := none,
    sel := { queryErr := some "near FROM: syntax error", columnsErr := none,
             columns := [], rowsData := [] },
    mod := { execErr := some "UNIQUE constraint failed: t.id",
             rowsAffected := 0, lastInsertId := 0 } }

/-- Witness for C10 at the concrete failing-statement environment. -/
theorem execute_query_error_routing_witness :
    (∃ p, DB.ExecuteQuery envSqlFail "mydb" "main" "SELECT 1" = .ok p)
    ∧ (∀ e, DB.isSelectQuery "SELECT 1" = true →
        envSqlFail.sel.queryErr = some e →
        DB.ExecuteQuery envSqlFail "mydb" "main" "SELECT 1" =
          .ok (.queryRes [] [] e)
        ∧ (DB.Payload.queryRes [] [] e).errField = e)
    ∧ (∀ e, DB.isSelectQuery "SELECT 1" = false →
        envSqlFail.mod.execErr = some e →
        DB.ExecuteQuery envSqlFail "mydb" "main" "SELECT 1" =
          .ok (.queryRes [] [] e)
        ∧ (DB.Payload.queryRes [] [] e).errField = e)
    ∧ (∀ env2 : DB.ExecEnv,
        (DB.ExecuteQuery env2 "mydb" "main" "SELECT 1").isOk = false ↔
          (env2.branchExists = false ∨
           (env2.connCached = false ∧ env2.openErr ≠ none))) :=
  execute_query_error_routing envSqlFail "mydb" "main" "SELECT 1" rfl
    (Or.inr rfl)

end Branchlore
